import Mathlib

/-!
Shallow embedding of the requirements-builder MCP server
(`src/dist/index.js`, the build that includes the settings store:
`loadSettings`/`saveSettings`, the `requirements-start`,
`requirements-status` and `requirements-settings` tool handlers).

The file system is modelled as an explicit `Store` record: the
`requirements/.current-requirement` pointer file, the
`requirements/.mcp-settings.json` file, and the per-session folders.
Wall-clock readings (`new Date().toISOString()` and the minute-resolution
timestamp prefix used for folder names) are passed in as string
parameters, and the boolean answer delivered by the MCP elicitation
(`askQuestion`) is passed in as a parameter as well.
-/

namespace ReqBuilder

/-- JS `\s` on the ASCII characters that can occur in our inputs
(space, tab, line feed, vertical tab, form feed, carriage return). -/
def isJsWhitespace (c : Char) : Bool :=
  c = ' ' || c = '\t' || c = '\n' || c = '\x0b' || c = '\x0c' || c = '\r'

/-- The character class `[a-z0-9\s-]` of the regex in
`createTimestampFolder`: the characters that survive
`.replace(/[^a-z0-9\s-]/g, '')`. -/
def keepChar (c : Char) : Bool :=
  ('a' ≤ c && c ≤ 'z') || ('0' ≤ c && c ≤ '9') || isJsWhitespace c || c = '-'

/-- `String.prototype.toLowerCase` restricted to ASCII case mapping,
as used on the request text in `createTimestampFolder`. -/
def jsToLower (s : String) : String :=
  String.mk (s.toList.map Char.toLower)

/-- `.replace(/\s+/g, '-')`: every maximal run of whitespace becomes a
single hyphen.  The boolean flag records whether we are inside a run
that has already emitted its hyphen. -/
def collapseWhitespace : Bool → List Char → List Char
  | _, [] => []
  | inRun, c :: rest =>
    if isJsWhitespace c then
      if inRun then collapseWhitespace true rest
      else '-' :: collapseWhitespace true rest
    else c :: collapseWhitespace false rest

/-- The slug computed inside `createTimestampFolder`:
`name.toLowerCase().replace(/[^a-z0-9\s-]/g, '').replace(/\s+/g, '-').slice(0, 30)`. -/
def createSlug (name : String) : String :=
  String.mk ((collapseWhitespace false ((jsToLower name).toList.filter keepChar)).take 30)

/-- `createTimestampFolder`: the minute-resolution timestamp prefix
(`now.toISOString().slice(0,16).replace('T','-').replace(':','')`,
supplied here as the external-clock parameter `tsPrefix`) concatenated
with the slug. -/
def createTimestampFolder (tsPrefix : String) (name : String) : String :=
  tsPrefix ++ "-" ++ createSlug name

/-- The settings record `{discoveryQuestions, expertQuestions}`. -/
structure Settings where
  discoveryQuestions : Nat
  expertQuestions : Nat
deriving DecidableEq, Repr

/-- `DEFAULT_SETTINGS = { discoveryQuestions: 5, expertQuestions: 5 }`. -/
def DEFAULT_SETTINGS : Settings :=
  { discoveryQuestions := 5, expertQuestions := 5 }

/-- The parsed content of `requirements/.mcp-settings.json`: a JSON
object in which either key may be absent. -/
structure PartialSettings where
  discoveryQuestions : Option Nat
  expertQuestions : Option Nat
deriving DecidableEq, Repr

/-- The `phase` field of `metadata.json`. -/
inductive Phase where
  | discovery
  | context
  | detail
  | complete
deriving DecidableEq, Repr

/-- The `status` field of `metadata.json`. -/
inductive SessionStatus where
  | active
  | completed
  | incomplete
deriving DecidableEq, Repr

/-- One `{answered, total}` progress counter pair. -/
structure Progress where
  answered : Nat
  total : Nat
deriving DecidableEq, Repr

/-- The `metadata.json` record of one session folder.  The fields the
handlers never read back (`contextFiles`, `relatedFeatures`) are
omitted. -/
structure Metadata where
  id : String
  started : String
  lastUpdated : String
  status : SessionStatus
  phase : Phase
  discovery : Progress
  detail : Progress
  settings : Option Settings
deriving DecidableEq, Repr

/-- One session folder `requirements/<folder-name>/`.  The two answer
transcript files are modelled by the ordered list of booleans they
record; the request and questions files by their presence. -/
structure Folder where
  initialRequest : Bool
  metadataFile : Option Metadata
  discoveryQuestionsFile : Bool
  discoveryAnswers : List Bool
  detailAnswers : List Bool
deriving DecidableEq, Repr

/-- The parts of the `requirements/` directory the modelled handlers
read and write: the `.current-requirement` pointer file (content, if
the file exists), the `.mcp-settings.json` file (`none` also covers
unparsable content, which `loadSettings` treats the same way), and the
session folders keyed by folder name. -/
structure Store where
  currentRequirement : Option String
  settingsFile : Option PartialSettings
  folders : List (String × Folder)
deriving DecidableEq, Repr

/-- First folder bound to `name`, as path lookup. -/
def getFolder : List (String × Folder) → String → Option Folder
  | [], _ => none
  | (k, f) :: rest, name => if k = name then some f else getFolder rest name

/-- Writing the files of folder `name`: replaces the folder if present,
creates it otherwise (`ensureDir` + `fs.writeFile`). -/
def setFolder : List (String × Folder) → String → Folder → List (String × Folder)
  | [], name, f => [(name, f)]
  | (k, g) :: rest, name, f =>
    if k = name then (k, f) :: rest else (k, g) :: setFolder rest name f

/-- `getCurrentRequirement`: read `.current-requirement` if it exists. -/
def getCurrentRequirement (s : Store) : Option String :=
  s.currentRequirement

/-- `setCurrentRequirement(folderName)`. -/
def setCurrentRequirement (s : Store) (folderName : String) : Store :=
  { s with currentRequirement := some folderName }

/-- `clearCurrentRequirement()`. -/
def clearCurrentRequirement (s : Store) : Store :=
  { s with currentRequirement := none }

/-- JS truthiness of the `string | null` returned by
`getCurrentRequirement`: `null` and the empty string are falsy. -/
def truthy : Option String → Bool
  | some v => v ≠ ""
  | none => false

/-- `loadSettings()`: `{ ...DEFAULT_SETTINGS, ...parsed }`, falling back
fully to the defaults when the file is missing or unparsable and
key-by-key when a key is absent. -/
def loadSettings (s : Store) : Settings :=
  match s.settingsFile with
  | none => DEFAULT_SETTINGS
  | some p =>
    { discoveryQuestions := p.discoveryQuestions.getD DEFAULT_SETTINGS.discoveryQuestions
      expertQuestions := p.expertQuestions.getD DEFAULT_SETTINGS.expertQuestions }

/-- `saveSettings(settings)`: writes the full record to
`.mcp-settings.json`. -/
def saveSettings (s : Store) (v : Settings) : Store :=
  { s with settingsFile := some { discoveryQuestions := some v.discoveryQuestions
                                  expertQuestions := some v.expertQuestions } }

/-- The zod bound `z.number().min(1).max(20)` on each question count of
the `requirements-settings` tool input. -/
def inRange (n : Nat) : Bool :=
  1 ≤ n && n ≤ 20

/-- Result of a `requirements-settings` call with `action="set"`. -/
inductive SettingsResult where
  | ok (v : Settings)
  | invalidSettings
deriving DecidableEq, Repr

/-- The `requirements-settings` tool with `action="set"`: the MCP SDK
validates the input against the zod schema (each provided count must be
in `[1, 20]`) before the handler runs; the handler then merges the
provided counts over `loadSettings()` with `??` and calls
`saveSettings`. -/
def settingsSet (s : Store) (discoveryQuestions expertQuestions : Option Nat) :
    SettingsResult × Store :=
  if discoveryQuestions.all inRange && expertQuestions.all inRange then
    let cur := loadSettings s
    let v : Settings :=
      { discoveryQuestions := discoveryQuestions.getD cur.discoveryQuestions
        expertQuestions := expertQuestions.getD cur.expertQuestions }
    (.ok v, saveSettings s v)
  else
    (.invalidSettings, s)

/-- The `requirements-settings` tool with `action="get"`: returns
`loadSettings()`. -/
def settingsGet (s : Store) : Settings :=
  loadSettings s

/-- JS `folderName.split('-')` on the character list; the accumulator
holds the current component reversed. -/
def splitHyphens : List Char → List Char → List (List Char)
  | acc, [] => [acc.reverse]
  | acc, c :: rest =>
    if c = '-' then acc.reverse :: splitHyphens [] rest
    else splitHyphens (c :: acc) rest

/-- `folderName.split('-').slice(-1)[0]`. -/
def lastHyphenComponent (s : String) : String :=
  String.mk ((splitHyphens [] s.toList).getLast?.getD [])

/-- The `metadata` object written by the `requirements-start` handler. -/
def initialMetadata (nowIso : String) (folderName : String) (v : Settings) : Metadata :=
  { id := lastHyphenComponent folderName
    started := nowIso
    lastUpdated := nowIso
    status := .active
    phase := .discovery
    discovery := { answered := 0, total := v.discoveryQuestions }
    detail := { answered := 0, total := v.expertQuestions }
    settings := some v }

/-- Result of a `requirements-start` call. -/
inductive StartResult where
  | alreadyActive (current : String)
  | started (folderName : String)
deriving DecidableEq, Repr

/-- The `requirements-start` tool handler.  `nowIso` models
`new Date().toISOString()` and `tsPrefix` the minute-resolution folder
timestamp.  On success it writes `00-initial-request.md`,
`metadata.json` and `01-discovery-questions.md` into the (possibly
pre-existing) folder and registers the folder as current; answer
transcripts left in a colliding folder are not touched.
`requirementsStartFresh` is the handler body below the active-session
guard. -/
def requirementsStartFresh (s : Store) (nowIso tsPrefix request : String) :
    StartResult × Store :=
  let folderName := createTimestampFolder tsPrefix request
  let v := loadSettings s
  let prev := getFolder s.folders folderName
  let folder : Folder :=
    { initialRequest := true
      metadataFile := some (initialMetadata nowIso folderName v)
      discoveryQuestionsFile := true
      discoveryAnswers := (prev.map Folder.discoveryAnswers).getD []
      detailAnswers := (prev.map Folder.detailAnswers).getD [] }
  let s1 : Store := { s with folders := setFolder s.folders folderName folder }
  (.started folderName, setCurrentRequirement s1 folderName)

def requirementsStart (s : Store) (nowIso tsPrefix request : String) :
    StartResult × Store :=
  match getCurrentRequirement s with
  | some current =>
    if current = "" then requirementsStartFresh s nowIso tsPrefix request
    else (.alreadyActive current, s)
  | none => requirementsStartFresh s nowIso tsPrefix request

/-- The fixed discovery question catalog in
`generateDiscoveryQuestions` has 10 entries; `slice(0, count)` caps at
this length. -/
def allDiscoveryQuestionsCount : Nat := 10

/-- The hard-coded expert question list in the `requirements-status`
handler has 5 entries before `slice(0, total)`. -/
def expertQuestionsCount : Nat := 5

/-- Result of a `requirements-status` call. -/
inductive StatusResult where
  | noActiveSession
  | metadataMissing (current : String)
  | discoveryAnswered (idx : Nat) (answer : Bool)
  | discoveryComplete (answer : Bool)
  | contextAdvanced
  | detailAnswered (idx : Nat) (answer : Bool)
  | detailComplete (answer : Bool)
  | statusSnapshot
  | internalError
deriving DecidableEq, Repr

/-- Which answer transcript file the step appends to. -/
inductive AnswerFileTarget where
  | noFile
  | discoveryFile
  | detailFile
deriving DecidableEq, Repr

/-- The metadata/answer part of one `requirements-status` step, given
the metadata it read.  `fallback` is `loadSettings()` (used when
`metadata.settings` is absent), `nowIso` the wall clock, `answer` the
boolean produced by `askQuestion`.  Returns the result plus, when the
handler writes files, the new metadata and the transcript appended to.
`internalError` models the `TypeError` thrown (and caught) when the
question index falls outside the sliced question list, before any
write. -/
def statusStep (fallback : Settings) (nowIso : String) (answer : Bool) (m : Metadata) :
    StatusResult × Option (Metadata × AnswerFileTarget) :=
  if m.phase = .discovery ∧ m.discovery.answered < m.discovery.total then
    let idx := m.discovery.answered
    let v := m.settings.getD fallback
    if idx < min v.discoveryQuestions allDiscoveryQuestionsCount then
      let m1 : Metadata :=
        { m with discovery := { answered := idx + 1, total := m.discovery.total }
                 lastUpdated := nowIso }
      if m1.discovery.total ≤ m1.discovery.answered then
        (.discoveryComplete answer, some ({ m1 with phase := .context }, .discoveryFile))
      else
        (.discoveryAnswered idx answer, some (m1, .discoveryFile))
    else
      (.internalError, none)
  else if m.phase = .context then
    (.contextAdvanced, some ({ m with phase := .detail, lastUpdated := nowIso }, .noFile))
  else if m.phase = .detail ∧ m.detail.answered < m.detail.total then
    let idx := m.detail.answered
    if idx < min m.detail.total expertQuestionsCount then
      let m1 : Metadata :=
        { m with detail := { answered := idx + 1, total := m.detail.total }
                 lastUpdated := nowIso }
      if m1.detail.total ≤ m1.detail.answered then
        (.detailComplete answer,
          some ({ m1 with phase := .complete, status := .completed }, .detailFile))
      else
        (.detailAnswered idx answer, some (m1, .detailFile))
    else
      (.internalError, none)
  else
    (.statusSnapshot, none)

/-- Append the answer to the transcript file the step designates. -/
def applyAnswer (folder : Folder) (tgt : AnswerFileTarget) (answer : Bool) : Folder :=
  match tgt with
  | .noFile => folder
  | .discoveryFile => { folder with discoveryAnswers := folder.discoveryAnswers ++ [answer] }
  | .detailFile => { folder with detailAnswers := folder.detailAnswers ++ [answer] }

/-- The `requirements-status` tool handler (the `advance()` step):
reads the pointer, reports when it is absent/empty, reports a missing
metadata file without clearing the pointer, and otherwise applies
`statusStep` and writes the updated metadata and transcript back into
the current folder. -/
def requirementsStatus (s : Store) (nowIso : String) (answer : Bool) :
    StatusResult × Store :=
  match getCurrentRequirement s with
  | none => (.noActiveSession, s)
  | some current =>
    if current = "" then (.noActiveSession, s)
    else
      match getFolder s.folders current with
      | none => (.metadataMissing current, s)
      | some folder =>
        match folder.metadataFile with
        | none => (.metadataMissing current, s)
        | some m =>
          match statusStep (loadSettings s) nowIso answer m with
          | (r, none) => (r, s)
          | (r, some (m', tgt)) =>
            let folder' : Folder :=
              { applyAnswer folder tgt answer with metadataFile := some m' }
            (r, { s with folders := setFolder s.folders current folder' })

/-- Iterate `requirements-status` over a list of (wall clock, answer)
inputs. -/
def runStatus (s : Store) : List (String × Bool) → Store
  | [] => s
  | (t, a) :: rest => runStatus (requirementsStatus s t a).2 rest

/-- The metadata of the session the registry pointer names, when the
pointer is truthy and the metadata file exists. -/
def activeMeta (s : Store) : Option Metadata :=
  match getCurrentRequirement s with
  | none => none
  | some current =>
    if current = "" then none
    else (getFolder s.folders current).bind Folder.metadataFile

/-- Relation between the metadata before and after one
`requirements-status` call: answered counters do not decrease, totals
do not change, and each `answered ≤ total` bound is preserved. -/
def ProgressStepOK (m m' : Metadata) : Prop :=
  m.discovery.answered ≤ m'.discovery.answered ∧
  m.detail.answered ≤ m'.detail.answered ∧
  m'.discovery.total = m.discovery.total ∧
  m'.detail.total = m.detail.total ∧
  (m.discovery.answered ≤ m.discovery.total → m'.discovery.answered ≤ m'.discovery.total) ∧
  (m.detail.answered ≤ m.detail.total → m'.detail.answered ≤ m'.detail.total)

/-- The phase either stays put or moves along one edge of the chain
`discovery → context → detail → complete`, with the completion guards
of the two question phases. -/
def PhaseStepOK (m m' : Metadata) : Prop :=
  m'.phase = m.phase ∨
  (m.phase = .discovery ∧ m'.phase = .context ∧
    m'.discovery.answered = m'.discovery.total) ∨
  (m.phase = .context ∧ m'.phase = .detail) ∨
  (m.phase = .detail ∧ m'.phase = .complete ∧
    m'.detail.answered = m'.detail.total)

/-- A fresh `requirements/` directory. -/
def emptyStore : Store :=
  { currentRequirement := none, settingsFile := none, folders := [] }

/-- A directory whose pointer file names an active session. -/
def busyStore : Store :=
  { currentRequirement := some "2025-01-01-0000-busy"
    settingsFile := none
    folders := [] }

/-- A directory whose pointer file names a session folder that no
longer exists (external tampering). -/
def tamperedStore : Store :=
  { currentRequirement := some "2025-01-01-0000-gone"
    settingsFile := none
    folders := [] }

/-- The store right after starting a session in a fresh directory. -/
def demoS1 : Store :=
  (requirementsStart emptyStore "now" "2025-01-01-0000" "demo request").2

/-- The metadata `requirements-start` writes for that session. -/
def demoMeta : Metadata :=
  initialMetadata "now" "2025-01-01-0000-demo-request" DEFAULT_SETTINGS

/-- That metadata after one answered discovery question. -/
def demoMeta1 : Metadata :=
  { demoMeta with discovery := { answered := 1, total := 5 }, lastUpdated := "t1" }

lemma getFolder_setFolder_self (fs : List (String × Folder)) (name : String) (f : Folder) :
    getFolder (setFolder fs name f) name = some f := by
  induction fs with
  | nil => simp [setFolder, getFolder]
  | cons hd tl ih =>
    obtain ⟨k, g⟩ := hd
    by_cases hk : k = name
    · simp [setFolder, getFolder, hk]
    · simp [setFolder, getFolder, hk, ih]

lemma statusStep_some_ok (fb : Settings) (t : String) (a : Bool) (m m' : Metadata)
    (tgt : AnswerFileTarget) (r : StatusResult)
    (h : statusStep fb t a m = (r, some (m', tgt))) :
    ProgressStepOK m m' ∧ PhaseStepOK m m' ∧ (m.phase = .context → m'.phase = .detail) := by
  simp only [statusStep] at h
  repeat' split at h
  all_goals
    simp only [Prod.mk.injEq, Option.some.injEq, reduceCtorEq, and_false, false_and] at h
  all_goals obtain ⟨-, rfl, -⟩ := h
  all_goals
    simp_all [ProgressStepOK, PhaseStepOK]
  all_goals omega

lemma statusStep_none_ok (fb : Settings) (t : String) (a : Bool) (m : Metadata)
    (r : StatusResult) (h : statusStep fb t a m = (r, none)) :
    m.phase ≠ .context := by
  simp only [statusStep] at h
  repeat' split at h
  all_goals simp_all

lemma activeMeta_some_elim (s : Store) (m : Metadata) (hm : activeMeta s = some m) :
    ∃ current folder, getCurrentRequirement s = some current ∧ current ≠ "" ∧
      getFolder s.folders current = some folder ∧ folder.metadataFile = some m := by
  unfold activeMeta at hm
  split at hm
  · exact absurd hm (by simp)
  case h_2 current heq =>
    split at hm
    · exact absurd hm (by simp)
    case isFalse hne =>
      match hfold : getFolder s.folders current with
      | none => rw [hfold] at hm; exact absurd hm (by simp)
      | some folder =>
        rw [hfold] at hm
        exact ⟨current, folder, heq, hne, hfold, hm⟩

lemma requirementsStatus_activeMeta (s : Store) (t : String) (a : Bool) (m : Metadata)
    (hm : activeMeta s = some m) :
    ∃ m', activeMeta (requirementsStatus s t a).2 = some m' ∧
      ((∃ r, statusStep (loadSettings s) t a m = (r, none) ∧ m' = m) ∨
        ∃ tgt r, statusStep (loadSettings s) t a m = (r, some (m', tgt))) := by
  obtain ⟨current, folder, hcur, hne, hfold, hmeta⟩ := activeMeta_some_elim s m hm
  unfold requirementsStatus
  rw [hcur]
  simp only [hne, if_false, hfold, hmeta]
  match hstep : statusStep (loadSettings s) t a m with
  | (r, none) =>
    exact ⟨m, hm, Or.inl ⟨r, rfl, rfl⟩⟩
  | (r, some (m', tgt)) =>
    refine ⟨m', ?_, Or.inr ⟨tgt, r, rfl⟩⟩
    unfold activeMeta
    simp [getCurrentRequirement] at hcur ⊢
    rw [hcur]
    simp [hne, getFolder_setFolder_self]

lemma requirementsStatus_step_ok (s : Store) (t : String) (a : Bool) (m : Metadata)
    (hm : activeMeta s = some m) :
    ∃ m', activeMeta (requirementsStatus s t a).2 = some m' ∧
      ProgressStepOK m m' ∧ PhaseStepOK m m' ∧ (m.phase = .context → m'.phase = .detail) := by
  obtain ⟨m', hm', hcase⟩ := requirementsStatus_activeMeta s t a m hm
  refine ⟨m', hm', ?_⟩
  rcases hcase with ⟨r, hstep, rfl⟩ | ⟨tgt, r, hstep⟩
  · refine ⟨⟨le_refl _, le_refl _, rfl, rfl, id, id⟩, Or.inl rfl, ?_⟩
    intro hctx
    exact absurd hctx (statusStep_none_ok _ t a m' r hstep)
  · exact statusStep_some_ok _ t a m m' tgt r hstep

lemma runStatus_ok (l : List (String × Bool)) :
    ∀ (s : Store) (m : Metadata), activeMeta s = some m →
    ∃ m', activeMeta (runStatus s l) = some m' ∧
      m.discovery.answered ≤ m'.discovery.answered ∧
      m.detail.answered ≤ m'.detail.answered ∧
      ((m.discovery.answered ≤ m.discovery.total ∧ m.detail.answered ≤ m.detail.total) →
        (m'.discovery.answered ≤ m'.discovery.total ∧ m'.detail.answered ≤ m'.detail.total)) := by
  induction l with
  | nil => exact fun s m hm => ⟨m, hm, le_refl _, le_refl _, id⟩
  | cons hd tl ih =>
    intro s m hm
    obtain ⟨t, a⟩ := hd
    obtain ⟨m1, hm1, hstep⟩ := requirementsStatus_step_ok s t a m hm
    obtain ⟨hd1, hd2, htotd, htote, hb1, hb2⟩ := hstep.1
    obtain ⟨m', hm', h1, h2, h3⟩ := ih _ m1 hm1
    refine ⟨m', by simpa [runStatus] using hm', le_trans hd1 h1, le_trans hd2 h2, ?_⟩
    intro hinv
    exact h3 ⟨htotd ▸ hb1 hinv.1, htote ▸ hb2 hinv.2⟩

lemma runStatus_append (s : Store) (l1 l2 : List (String × Bool)) :
    runStatus s (l1 ++ l2) = runStatus (runStatus s l1) l2 := by
  induction l1 generalizing s with
  | nil => simp [runStatus]
  | cons hd tl ih =>
    obtain ⟨t, a⟩ := hd
    simp [runStatus, ih]

lemma createTimestampFolder_ne_empty (tsPrefix name : String) :
    createTimestampFolder tsPrefix name ≠ "" := by
  intro h
  have hlen : (createTimestampFolder tsPrefix name).length = 0 := by rw [h]; rfl
  simp [createTimestampFolder, String.length_append] at hlen
  exact absurd hlen.1.2 (by decide)

lemma requirementsStartFresh_elim (s : Store)
    (nowIso tsPrefix request folderName : String) (s1 : Store)
    (h : requirementsStartFresh s nowIso tsPrefix request = (.started folderName, s1)) :
    folderName = createTimestampFolder tsPrefix request ∧
    s1.currentRequirement = some folderName ∧
    ∃ folder, getFolder s1.folders folderName = some folder ∧
      folder.initialRequest = true ∧
      folder.discoveryQuestionsFile = true ∧
      folder.metadataFile = some (initialMetadata nowIso folderName (loadSettings s)) := by
  simp only [requirementsStartFresh] at h
  injection h with h1 h2
  injection h1 with h1
  subst h1 h2
  refine ⟨rfl, rfl, ?_⟩
  exact ⟨_, getFolder_setFolder_self _ _ _, rfl, rfl, rfl⟩

lemma requirementsStart_started_elim (s : Store)
    (nowIso tsPrefix request folderName : String) (s1 : Store)
    (h : requirementsStart s nowIso tsPrefix request = (.started folderName, s1)) :
    folderName = createTimestampFolder tsPrefix request ∧
    s1.currentRequirement = some folderName ∧
    ∃ folder, getFolder s1.folders folderName = some folder ∧
      folder.initialRequest = true ∧
      folder.discoveryQuestionsFile = true ∧
      folder.metadataFile = some (initialMetadata nowIso folderName (loadSettings s)) := by
  unfold requirementsStart at h
  split at h
  case h_1 current heq =>
    split at h
    · exact requirementsStartFresh_elim s nowIso tsPrefix request folderName s1 h
    · exact absurd h (by simp)
  case h_2 => exact requirementsStartFresh_elim s nowIso tsPrefix request folderName s1 h

lemma requirementsStart_activeMeta (s : Store)
    (nowIso tsPrefix request folderName : String) (s1 : Store)
    (h : requirementsStart s nowIso tsPrefix request = (.started folderName, s1)) :
    activeMeta s1 = some (initialMetadata nowIso folderName (loadSettings s)) := by
  obtain ⟨hfn, hcur, folder, hfold, -, -, hmeta⟩ := requirementsStart_started_elim
    s nowIso tsPrefix request folderName s1 h
  unfold activeMeta getCurrentRequirement
  rw [hcur]
  have hne : folderName ≠ "" := hfn ▸ createTimestampFolder_ne_empty tsPrefix request
  simp [hne, hfold, hmeta]

lemma requirementsStart_eq_fresh (s : Store) (nowIso tsPrefix request : String)
    (h : truthy (getCurrentRequirement s) = false) :
    requirementsStart s nowIso tsPrefix request =
      requirementsStartFresh s nowIso tsPrefix request := by
  unfold requirementsStart
  match hc : getCurrentRequirement s with
  | none => rfl
  | some c =>
    rw [hc, truthy] at h
    simp only [decide_eq_false_iff_not, not_not] at h
    simp [h]

/-- C1: for every session and every sequence of `advance()`
(`requirements-status`) calls, `progress.discovery.answered` and
`progress.detail.answered` are non-decreasing from call to call, and
each always remains less than or equal to its corresponding total. -/
theorem advance_progress_monotone_and_bounded
    (s0 : Store) (nowIso tsPrefix request folderName : String) (s1 : Store)
    (hstart : requirementsStart s0 nowIso tsPrefix request = (.started folderName, s1))
    (pre post : List (String × Bool)) (m m' : Metadata)
    (hm : activeMeta (runStatus s1 pre) = some m)
    (hm' : activeMeta (runStatus s1 (pre ++ post)) = some m') :
    m.discovery.answered ≤ m'.discovery.answered ∧
    m.detail.answered ≤ m'.detail.answered ∧
    m'.discovery.answered ≤ m'.discovery.total ∧
    m'.detail.answered ≤ m'.detail.total := by
  have hact := requirementsStart_activeMeta s0 nowIso tsPrefix request folderName s1 hstart
  obtain ⟨mA, hmA, -, -, hbA⟩ := runStatus_ok pre s1 _ hact
  rw [hm] at hmA
  injection hmA with hmA
  subst hmA
  have hinv : m.discovery.answered ≤ m.discovery.total ∧
      m.detail.answered ≤ m.detail.total := by
    refine hbA ⟨?_, ?_⟩ <;> simp [initialMetadata]
  rw [runStatus_append] at hm'
  obtain ⟨mB, hmB, h1, h2, hb⟩ := runStatus_ok post (runStatus s1 pre) m hm
  rw [hm'] at hmB
  injection hmB with hmB
  subst hmB
  exact ⟨h1, h2, (hb hinv).1, (hb hinv).2⟩

/-- C1 witness: from a fresh directory, start a session and answer one
discovery question. -/
theorem advance_progress_monotone_and_bounded_witness :
    demoMeta.discovery.answered ≤ demoMeta1.discovery.answered ∧
    demoMeta.detail.answered ≤ demoMeta1.detail.answered ∧
    demoMeta1.discovery.answered ≤ demoMeta1.discovery.total ∧
    demoMeta1.detail.answered ≤ demoMeta1.detail.total :=
  advance_progress_monotone_and_bounded emptyStore "now" "2025-01-01-0000" "demo request"
    "2025-01-01-0000-demo-request" demoS1 (by decide) [] [("t1", true)] demoMeta demoMeta1
    (by decide) (by decide)

/-- C2: across any one `requirements-status` call on the active
session, the phase either stays put or moves along exactly one edge of
`discovery → context → detail → complete`: into `context` only with
`discovery.answered = discovery.total`, from `context` unconditionally,
into `complete` only with `detail.answered = detail.total`; no other
edge is reachable. -/
theorem status_phase_edges (s : Store) (t : String) (a : Bool) (m m' : Metadata)
    (hm : activeMeta s = some m)
    (hm' : activeMeta (requirementsStatus s t a).2 = some m') :
    (m'.phase = m.phase ∨
      (m.phase = .discovery ∧ m'.phase = .context ∧
        m'.discovery.answered = m'.discovery.total) ∨
      (m.phase = .context ∧ m'.phase = .detail) ∨
      (m.phase = .detail ∧ m'.phase = .complete ∧
        m'.detail.answered = m'.detail.total)) ∧
    (m.phase = .context → m'.phase = .detail) := by
  obtain ⟨m2, hm2, -, hph, hctx⟩ := requirementsStatus_step_ok s t a m hm
  rw [hm'] at hm2
  injection hm2 with hm2
  subst hm2
  exact ⟨by simpa [PhaseStepOK] using hph, hctx⟩

/-- C2 witness: one step on a freshly created session (a self-loop
edge in `discovery`). -/
theorem status_phase_edges_witness :
    (demoMeta1.phase = demoMeta.phase ∨
      (demoMeta.phase = .discovery ∧ demoMeta1.phase = .context ∧
        demoMeta1.discovery.answered = demoMeta1.discovery.total) ∨
      (demoMeta.phase = .context ∧ demoMeta1.phase = .detail) ∨
      (demoMeta.phase = .detail ∧ demoMeta1.phase = .complete ∧
        demoMeta1.detail.answered = demoMeta1.detail.total)) ∧
    (demoMeta.phase = .context → demoMeta1.phase = .detail) :=
  status_phase_edges demoS1 "t1" true demoMeta demoMeta1 (by decide) (by decide)

/-- C3: calling `requirements-start` while the registry pointer names
an active session fails with the already-active error, regardless of
the request text, and changes nothing. -/
theorem start_fails_when_active (s : Store) (nowIso tsPrefix request current : String)
    (h1 : getCurrentRequirement s = some current) (h2 : current ≠ "") :
    requirementsStart s nowIso tsPrefix request = (.alreadyActive current, s) := by
  unfold requirementsStart
  rw [h1]
  simp [h2]

/-- C3 witness. -/
theorem start_fails_when_active_witness :
    requirementsStart busyStore "now" "2025-01-01-0001" "another request" =
      (.alreadyActive "2025-01-01-0000-busy", busyStore) :=
  start_fails_when_active busyStore "now" "2025-01-01-0001" "another request"
    "2025-01-01-0000-busy" rfl (by decide)

/-- C4: a successful `requirements-start` registers the new folder as
current, writes the initial request record, the discovery questions
file and the metadata record, and that metadata has `phase=discovery`,
`status=active`, `progress.discovery = {0, settings.discoveryQuestions}`,
`progress.detail = {0, settings.expertQuestions}`, with the loaded
settings captured in the session. -/
theorem start_initializes_session (s : Store) (nowIso tsPrefix request : String)
    (h : truthy (getCurrentRequirement s) = false) :
    (requirementsStart s nowIso tsPrefix request).1 =
      .started (createTimestampFolder tsPrefix request) ∧
    (requirementsStart s nowIso tsPrefix request).2.currentRequirement =
      some (createTimestampFolder tsPrefix request) ∧
    (getFolder (requirementsStart s nowIso tsPrefix request).2.folders
        (createTimestampFolder tsPrefix request)).map Folder.initialRequest = some true ∧
    (getFolder (requirementsStart s nowIso tsPrefix request).2.folders
        (createTimestampFolder tsPrefix request)).map Folder.discoveryQuestionsFile =
      some true ∧
    (getFolder (requirementsStart s nowIso tsPrefix request).2.folders
        (createTimestampFolder tsPrefix request)).bind Folder.metadataFile =
      some (initialMetadata nowIso (createTimestampFolder tsPrefix request)
        (loadSettings s)) ∧
    (initialMetadata nowIso (createTimestampFolder tsPrefix request)
        (loadSettings s)).phase = .discovery ∧
    (initialMetadata nowIso (createTimestampFolder tsPrefix request)
        (loadSettings s)).status = .active ∧
    (initialMetadata nowIso (createTimestampFolder tsPrefix request)
        (loadSettings s)).discovery =
      { answered := 0, total := (loadSettings s).discoveryQuestions } ∧
    (initialMetadata nowIso (createTimestampFolder tsPrefix request)
        (loadSettings s)).detail =
      { answered := 0, total := (loadSettings s).expertQuestions } ∧
    (initialMetadata nowIso (createTimestampFolder tsPrefix request)
        (loadSettings s)).settings = some (loadSettings s) := by
  rw [requirementsStart_eq_fresh s nowIso tsPrefix request h]
  refine ⟨rfl, rfl, ?_, ?_, ?_, rfl, rfl, rfl, rfl, rfl⟩ <;>
    simp [requirementsStartFresh, setCurrentRequirement, getFolder_setFolder_self]

/-- C4 witness: starting in a fresh directory. -/
theorem start_initializes_session_witness :
    (requirementsStart emptyStore "now" "2025-01-01-0000" "demo request").1 =
      .started "2025-01-01-0000-demo-request" ∧
    (requirementsStart emptyStore "now" "2025-01-01-0000" "demo request").2.currentRequirement =
      some "2025-01-01-0000-demo-request" := by
  have h := start_initializes_session emptyStore "now" "2025-01-01-0000" "demo request"
    (by decide)
  have he : createTimestampFolder "2025-01-01-0000" "demo request" =
      "2025-01-01-0000-demo-request" := by decide
  rw [he] at h
  exact ⟨h.1, h.2.1⟩

/-- C6 counterexample: with the pointer naming a session whose
metadata file is gone, `requirements-status` reports a
metadata-missing error rather than `NoActiveSession`, and the pointer
is NOT cleared — no self-healing happens. -/
theorem status_no_self_heal_counterexample :
    (requirementsStatus tamperedStore "t" true).1 =
      .metadataMissing "2025-01-01-0000-gone" ∧
    (requirementsStatus tamperedStore "t" true).1 ≠ .noActiveSession ∧
    (requirementsStatus tamperedStore "t" true).2.currentRequirement =
      some "2025-01-01-0000-gone" := by decide

/-- C6 (amended): whenever the registry pointer names a session whose
metadata file is missing, `requirements-status` reports the
metadata-missing error for that session and leaves the whole store —
the registry pointer included — unchanged. -/
theorem status_metadata_missing_reports_without_healing (s : Store) (t : String)
    (a : Bool) (current : String)
    (h1 : getCurrentRequirement s = some current) (h2 : current ≠ "")
    (h3 : (getFolder s.folders current).bind Folder.metadataFile = none) :
    requirementsStatus s t a = (.metadataMissing current, s) := by
  unfold requirementsStatus
  rw [h1]
  simp only [h2, if_false]
  cases hf : getFolder s.folders current with
  | none => simp
  | some folder =>
    rw [hf] at h3
    simp only [Option.bind_eq_none] at h3
    cases hmf : folder.metadataFile with
    | none => simp [hmf]
    | some m => exact absurd hmf (by simp [h3])

/-- C6 (amended) witness. -/
theorem status_metadata_missing_witness :
    requirementsStatus tamperedStore "t" true =
      (.metadataMissing "2025-01-01-0000-gone", tamperedStore) :=
  status_metadata_missing_reports_without_healing tamperedStore "t" true
    "2025-01-01-0000-gone" rfl (by decide) rfl

/-- C7: `requirements-settings` with `action="set"` accepts each
provided count only when it lies in `[1, 20]`; an out-of-range count
makes the call fail with the invalid-settings outcome and persists
nothing. -/
theorem settingsSet_validates (s : Store) (d e : Option Nat)
    (h : d.all inRange = false ∨ e.all inRange = false) :
    settingsSet s d e = (.invalidSettings, s) := by
  unfold settingsSet
  rcases h with h | h <;> simp [h]

/-- C7 witness: a zero discovery count is rejected without touching
the store. -/
theorem settingsSet_validates_witness :
    (some 0 : Option Nat).all inRange = false ∧
    settingsSet emptyStore (some 0) (some 7) = (.invalidSettings, emptyStore) :=
  ⟨by decide, settingsSet_validates emptyStore (some 0) (some 7) (Or.inl (by decide))⟩

/-- C8: `settingsSet {discoveryQuestions := 3}` followed by
`settingsGet` returns `discoveryQuestions = 3` with `expertQuestions`
unchanged from its value before the set, whatever was on disk. -/
theorem settings_set_get_roundtrip (s : Store) :
    settingsGet (settingsSet s (some 3) none).2 =
      { discoveryQuestions := 3,
        expertQuestions := (settingsGet s).expertQuestions } := by
  simp [settingsSet, settingsGet, saveSettings, loadSettings, inRange]

lemma mem_collapseWhitespace (c : Char) :
    ∀ (b : Bool) (l : List Char), c ∈ collapseWhitespace b l →
      c = '-' ∨ (c ∈ l ∧ isJsWhitespace c = false) := by
  intro b l
  induction l generalizing b with
  | nil => simp [collapseWhitespace]
  | cons hd tl ih =>
    intro hmem
    unfold collapseWhitespace at hmem
    split at hmem
    case isTrue hws =>
      split at hmem
      · rcases ih _ hmem with h | h
        · exact Or.inl h
        · exact Or.inr ⟨List.mem_cons_of_mem _ h.1, h.2⟩
      · rcases List.mem_cons.mp hmem with rfl | hmem2
        · exact Or.inl rfl
        · rcases ih _ hmem2 with h | h
          · exact Or.inl h
          · exact Or.inr ⟨List.mem_cons_of_mem _ h.1, h.2⟩
    case isFalse hws =>
      rcases List.mem_cons.mp hmem with rfl | hmem2
      · exact Or.inr ⟨List.mem_cons_self _ _, by simpa using hws⟩
      · rcases ih _ hmem2 with h | h
        · exact Or.inl h
        · exact Or.inr ⟨List.mem_cons_of_mem _ h.1, h.2⟩

/-- C5 counterexample: the claimed slug for
`"Add Dark-Mode!! Support"` is wrong — the hyphen of `Dark-Mode` is
inside the kept character class `[a-z0-9\s-]`, so it is not stripped. -/
theorem createSlug_example_counterexample :
    createSlug "Add Dark-Mode!! Support" ≠ "add-darkmode-support" := by decide

/-- C5 (amended): the slug is the request lower-cased, characters
outside `[a-z0-9\s-]` stripped, whitespace runs collapsed to single
hyphens, truncated to 30 characters; every slug is at most 30
characters drawn from `[a-z0-9-]`, and the input
`"Add Dark-Mode!! Support"` yields `add-dark-mode-support`. -/
theorem createSlug_algorithm :
    createSlug "Add Dark-Mode!! Support" = "add-dark-mode-support" ∧
    ∀ name : String, (createSlug name).length ≤ 30 ∧
      ∀ c ∈ (createSlug name).toList,
        ('a' ≤ c ∧ c ≤ 'z') ∨ ('0' ≤ c ∧ c ≤ '9') ∨ c = '-' := by
  refine ⟨by decide, fun name => ⟨?_, ?_⟩⟩
  · show (List.take 30 _).length ≤ 30
    rw [List.length_take]
    exact min_le_left _ _
  · intro c hc
    have hc2 : c ∈ collapseWhitespace false
        (((jsToLower name).toList).filter keepChar) :=
      List.mem_of_mem_take hc
    rcases mem_collapseWhitespace c false _ hc2 with h | ⟨hmem, hws⟩
    · exact Or.inr (Or.inr h)
    · have hk : keepChar c = true := (List.mem_filter.mp hmem).2
      simp only [keepChar, hws, Bool.or_eq_true, Bool.and_eq_true, decide_eq_true_eq,
        Bool.false_eq_true, false_or, or_false] at hk
      exact or_assoc.mp hk

/-- C5 (amended) witness: the example slug is within the length bound
and its character `d` is in the allowed class. -/
theorem createSlug_algorithm_witness :
    (createSlug "Add Dark-Mode!! Support").length ≤ 30 ∧
    ('a' ≤ 'd' ∧ 'd' ≤ 'z' ∨ '0' ≤ 'd' ∧ 'd' ≤ '9' ∨ 'd' = '-') := by
  have h := createSlug_algorithm
  exact ⟨(h.2 "Add Dark-Mode!! Support").1,
    (h.2 "Add Dark-Mode!! Support").2 'd' (by decide)⟩

end ReqBuilder
